import Mathlib

/-!
Verification of the Steam-Scout core: the sliding-window rate limiter
(`src/server/middleware/rate-limiter.ts`) and the Steam aggregation /
caching proxy (`src/server/routes.ts`, with the serverless variant in
`src/unnamed/part_003`).

Times and timestamps are JavaScript millisecond numbers, embedded as `Int`
(JS subtraction can go negative, e.g. `now - windowMs`).  The in-memory
`Map` stores are embedded as association lists in insertion order, which is
exactly the iteration and overwrite behaviour of a JS `Map` (lookup finds
the unique binding; `set` of an existing key overwrites in place; `set` of
a new key appends at the end).
-/

/-! ## Rate limiter (src/server/middleware/rate-limiter.ts) -/

/-- Configuration record `RateLimitConfig` (lines 18-25).  `message` and
`keyGenerator` are omitted here: the message is an opaque string and the
key generator is passed explicitly to `rateLimiterMiddleware` below. -/
structure RateLimitConfig where
  windowMs : Int
  maxRequests : Nat
  skipSuccessfulRequests : Bool
  skipFailedRequests : Bool
deriving Repr, DecidableEq

/-- Store entry `RateLimitEntry` (lines 27-31): a running count, the window
expiry time fixed at entry creation, and the sliding-window timestamps. -/
structure RateLimitEntry where
  count : Nat
  resetTime : Int
  requests : List Int
deriving Repr, DecidableEq

/-- Outcome of one pass through the limiter body for one request: either the
request is admitted (with the `X-RateLimit-Remaining` value, line 107) or it
is rejected with the `retryAfter` seconds value (line 83). -/
inductive RateResult where
  | allowed (remaining : Int)
  | rejected (retryAfter : Int)
deriving Repr, DecidableEq

def RateResult.isAllowed : RateResult → Bool
  | .allowed _ => true
  | .rejected _ => false

def RateResult.isRejected : RateResult → Bool
  | .allowed _ => false
  | .rejected _ => true

/-- `Math.ceil(x / 1000)` on an integer millisecond quantity `x` (line 83).
`Int./` is floor division for the positive divisor, so `-((-x) / 1000)` is
the exact ceiling. -/
def ceilSeconds (x : Int) : Int := -((-x) / 1000)

/-- The fresh entry built at lines 70-74 when a key has no entry or its
entry has expired. -/
def freshEntry (cfg : RateLimitConfig) (now : Int) : RateLimitEntry :=
  { count := 0, resetTime := now + cfg.windowMs, requests := [] }

/-- Lines 66-76: fetch the entry for the key, replacing a missing or expired
(`entry.resetTime < now`) entry by a fresh one. -/
def activeEntry (cfg : RateLimitConfig) (store : Option RateLimitEntry) (now : Int) :
    RateLimitEntry :=
  match store with
  | none => freshEntry cfg now
  | some e => if e.resetTime < now then freshEntry cfg now else e

/-- The check-and-record body of the middleware (lines 61-110) for one key:
prune timestamps at or before `now - windowMs` (the filter keeps
`timestamp > windowStart`, line 79), reject when the pruned count has
reached `maxRequests` (line 82) with `retryAfter = ceil((resetTime - now)/1000)`
(line 83), otherwise append `now` and increment the counter (lines 103-104),
reporting `remaining = max(0, maxRequests - requests.length)` (line 107).
Returns the result together with the entry as it sits in the store after the
call (the code mutates the shared entry object in place). -/
def checkAndRecord (cfg : RateLimitConfig) (store : Option RateLimitEntry) (now : Int) :
    RateResult × RateLimitEntry :=
  let entry := activeEntry cfg store now
  let requests := entry.requests.filter (fun t => now - cfg.windowMs < t)
  if cfg.maxRequests ≤ requests.length then
    (RateResult.rejected (ceilSeconds (entry.resetTime - now)),
     { entry with requests := requests })
  else
    (RateResult.allowed (max 0 ((cfg.maxRequests : Int) - ((requests.length : Int) + 1))),
     { entry with requests := requests ++ [now], count := entry.count + 1 })

/-- A sequence of calls on a single key, threading the stored entry. -/
def runCalls (cfg : RateLimitConfig) :
    Option RateLimitEntry → List Int → List RateResult × Option RateLimitEntry
  | store, [] => ([], store)
  | store, t :: ts =>
    let step := checkAndRecord cfg store t
    let rest := runCalls cfg (some step.2) ts
    (step.1 :: rest.1, rest.2)

/-- The retraction performed by the patched `res.json` when a response
outcome is to be skipped (line 122): `entry.requests.pop()`, i.e. remove the
most recently recorded timestamp, whosever it is. -/
def retractLast (e : RateLimitEntry) : RateLimitEntry :=
  { e with requests := e.requests.dropLast }

/-- Association-list embedding of a JS `Map` lookup (`Map.get`). -/
def assocLookup {β : Type} : List (String × β) → String → Option β
  | [], _ => none
  | (k, v) :: rest, key => if k = key then some v else assocLookup rest key

/-- Association-list embedding of `Map.set`: overwrite in place when the key
is present, append otherwise. -/
def assocSet {β : Type} : List (String × β) → String → β → List (String × β)
  | [], key, v => [(key, v)]
  | (k, w) :: rest, key, v =>
    if k = key then (k, v) :: rest else (k, w) :: assocSet rest key v

/-- What the middleware does with a request, observably: call `next()` or
send a 429 with a `retryAfter` value. -/
inductive MiddlewareAction where
  | next
  | tooManyRequests (retryAfter : Int)
deriving Repr, DecidableEq

/-- Observable outcome of one middleware invocation.  The middleware is a
total function into this type: no error escapes to the caller (the whole
body sits in the `try`/`catch` of lines 60-134).  `errorLogged` records the
`console.error` of line 131. -/
structure MiddlewareOutcome where
  action : MiddlewareAction
  errorLogged : Bool
  store : List (String × RateLimitEntry)
deriving Repr, DecidableEq

/-- The middleware of `createRateLimiter` (lines 59-135).  The
`keyGenerator` (line 61) is caller-supplied code and is the fault-injection
point of the embedding: it may throw (`Except.error`).  Any such throw is
caught by the catch-all at lines 130-134, which logs and calls `next()`
("fail open"), leaving the store untouched.  On the normal path the entry
for the key is checked and recorded and the updated entry is stored. -/
def rateLimiterMiddleware {Req : Type} (cfg : RateLimitConfig)
    (keyGen : Req → Except String String)
    (store : List (String × RateLimitEntry)) (req : Req) (now : Int) :
    MiddlewareOutcome :=
  match keyGen req with
  | Except.error _ =>
    { action := MiddlewareAction.next, errorLogged := true, store := store }
  | Except.ok key =>
    let step := checkAndRecord cfg (assocLookup store key) now
    let newStore := assocSet store key step.2
    match step.1 with
    | RateResult.allowed _ =>
      { action := MiddlewareAction.next, errorLogged := false, store := newStore }
    | RateResult.rejected ra =>
      { action := MiddlewareAction.tooManyRequests ra, errorLogged := false, store := newStore }

/-! ## Steam aggregation proxy (src/server/routes.ts, clerk variant lines 254-629) -/

/-- One element of `appData.genres`; only `description` is read (line 570). -/
structure SteamGenre where
  description : String
deriving Repr, DecidableEq

/-- `appData.release_date`; `date` may itself be absent (line 569 reads
`release_date?.date`). -/
structure SteamReleaseDate where
  date : Option String
deriving Repr, DecidableEq

/-- `appData.metacritic`; `score` is read at line 567. -/
structure SteamMetacritic where
  score : Int
deriving Repr, DecidableEq

/-- `appData.recommendations`; `total` is read at line 568. -/
structure SteamRecommendations where
  total : Int
deriving Repr, DecidableEq

/-- The fields of `detailsData[appId].data` that the routes read.  Optional
fields model properties that may be absent from the upstream JSON.
`price_overview` is an opaque payload passed through unchanged by the
details endpoint, embedded as an uninterpreted optional string. -/
structure AppData where
  steam_appid : Int
  name : String
  short_description : String
  header_image : String
  website : Option String
  developers : Option (List String)
  publishers : Option (List String)
  price_overview : Option String
  metacritic : Option SteamMetacritic
  recommendations : Option SteamRecommendations
  release_date : Option SteamReleaseDate
  genres : Option (List SteamGenre)
deriving Repr, DecidableEq

/-- A game record of the top-games response (lines 560-571). -/
structure Game where
  appid : Int
  name : String
  headerImage : String
  developers : List String
  publishers : List String
  playerCount : Int
  reviewScore : Option Int
  totalReviews : Option Int
  releaseDate : Option String
  genres : List String
deriving Repr, DecidableEq

/-- `statsData.response?.player_count || 0` (lines 488-497 and 548-558): a
failed or value-less player-count fetch yields 0; a fetched value `n` is
kept (JS `n || 0` maps the falsy 0 to 0, which is the identity on 0). -/
def playerCountOf : Option Int → Int
  | none => 0
  | some n => n

/-- Build the top-games game record from successfully fetched metadata and a
player count (lines 560-571): absent `developers`/`publishers`/`genres`
arrays default to `[]`, `genres` is mapped to its descriptions,
`release_date?.date` is flattened, `metacritic?.score` and
`recommendations?.total` stay optional. -/
def buildGameRecord (a : AppData) (playerCount : Int) : Game :=
  { appid := a.steam_appid
    name := a.name
    headerImage := a.header_image
    developers := a.developers.getD []
    publishers := a.publishers.getD []
    playerCount := playerCount
    reviewScore := a.metacritic.map SteamMetacritic.score
    totalReviews := a.recommendations.map SteamRecommendations.total
    releaseDate := a.release_date.bind SteamReleaseDate.date
    genres := (a.genres.map (fun gl => gl.map SteamGenre.description)).getD [] }

/-- The per-identifier fetch of the top-games fan-out (lines 538-575).  The
metadata oracle returns `none` when the details fetch throws or reports
`success: false`, in which case the whole identifier yields `null` (lines
545 and 572-574) and no record is produced.  A metadata hit always produces
a record, with the player count degraded to 0 on a failed player fetch. -/
def fetchGame (meta : Int → Option AppData) (player : Int → Option Int) (appId : Int) :
    Option Game :=
  match meta appId with
  | none => none
  | some a => some (buildGameRecord a (playerCountOf (player appId)))

/-- `metrics` object of the single-game details response (lines 510-514). -/
structure DetailMetrics where
  player_count : Int
  review_score : Option Int
  total_reviews : Option Int
deriving Repr, DecidableEq

/-- The single-game details response (lines 499-515). -/
structure DetailResult where
  steam_appid : Int
  name : String
  short_description : String
  header_image : String
  website : Option String
  developers : List String
  publishers : List String
  price_overview : Option String
  genres : Option (List SteamGenre)
  release_date : Option SteamReleaseDate
  metrics : DetailMetrics
deriving Repr, DecidableEq

/-- Build the details response from fetched metadata and a player count
(lines 499-515). -/
def buildDetailResult (a : AppData) (playerCount : Int) : DetailResult :=
  { steam_appid := a.steam_appid
    name := a.name
    short_description := a.short_description
    header_image := a.header_image
    website := a.website
    developers := a.developers.getD []
    publishers := a.publishers.getD []
    price_overview := a.price_overview
    genres := a.genres
    release_date := a.release_date
    metrics :=
      { player_count := playerCount
        review_score := a.metacritic.map SteamMetacritic.score
        total_reviews := a.recommendations.map SteamRecommendations.total } }

/-- The fetch-and-merge core of the details endpoint (lines 469-523):
`none` covers both the 404 (`success: false`) and the 500 (fetch threw)
exits; a metadata hit yields the merged result, with the player count
defaulting to 0 on a failed player-count fetch (lines 488-497). -/
def getGameDetails (meta : Int → Option AppData) (player : Int → Option Int)
    (appId : Int) : Option DetailResult :=
  match meta appId with
  | none => none
  | some a => some (buildDetailResult a (playerCountOf (player appId)))

/-- The curated identifier list (lines 526-530). -/
def TOP_GAME_IDS : List Int :=
  [730, 570, 440, 1172470, 578080, 1599340, 252490, 271590,
   1245620, 892970, 1091500, 814380, 1174180, 359550,
   413150, 367520, 391540, 1086940, 105600, 945360]

/-- Stable insertion step for a descending sort by an integer key: the
incoming element goes in front of the first strictly smaller key, after any
equal keys.  This is the observable behaviour of the (stable, per ECMA-262)
`Array.prototype.sort` with comparator `(a, b) => key(b) - key(a)`. -/
def insertDescBy {α : Type} (key : α → Int) (x : α) : List α → List α
  | [] => [x]
  | y :: ys => if key y ≤ key x then x :: y :: ys else y :: insertDescBy key x ys

/-- Stable descending sort by an integer key, modelling
`.sort((a, b) => key(b) - key(a))` (lines 580 and 617). -/
def sortDescBy {α : Type} (key : α → Int) : List α → List α
  | [] => []
  | x :: xs => insertDescBy key x (sortDescBy key xs)

/-- The per-studio accumulator of the `studioMap` (lines 582-587). -/
structure StudioData where
  totalPlayers : Int
  games : List String
  topPlayerCount : Int
  topGame : String
deriving Repr, DecidableEq

/-- One step of the studio aggregation for one developer occurrence of one
game (lines 591-606): a missing entry is created from the game; an existing
entry accumulates the player count, appends the game name, and replaces its
top game only when the new count is strictly greater. -/
def stepData : Option StudioData → Game → StudioData
  | none, g =>
    { totalPlayers := g.playerCount, games := [g.name],
      topPlayerCount := g.playerCount, topGame := g.name }
  | some d, g =>
    { totalPlayers := d.totalPlayers + g.playerCount
      games := d.games ++ [g.name]
      topPlayerCount := if d.topPlayerCount < g.playerCount then g.playerCount else d.topPlayerCount
      topGame := if d.topPlayerCount < g.playerCount then g.name else d.topGame }

/-- `studioMap.get(dev)` / `studioMap.set(dev, ...)` for one developer
occurrence: in-place update of an existing binding, append of a new one. -/
def updateEntry (dev : String) (g : Game) :
    List (String × StudioData) → List (String × StudioData)
  | [] => [(dev, stepData none g)]
  | (k, d) :: rest =>
    if k = dev then (k, stepData (some d) g) :: rest else (k, d) :: updateEntry dev g rest

/-- The inner loop `for (const dev of game.developers)` (lines 590-607). -/
def applyGame (m : List (String × StudioData)) (g : Game) : List (String × StudioData) :=
  g.developers.foldl (fun acc dev => updateEntry dev g acc) m

/-- The outer loop `for (const game of games)` (lines 589-608), starting
from the empty `studioMap`. -/
def buildStudioMap (games : List Game) : List (String × StudioData) :=
  games.foldl applyGame []

/-- One element of the `studios` array (lines 610-616). -/
structure StudioRollup where
  name : String
  gamesCount : Nat
  totalPlayers : Int
  topGame : String
deriving Repr, DecidableEq

/-- Projection `([name, data]) => ({name, gamesCount, totalPlayers, topGame})`
(lines 611-616). -/
def projectRollup (p : String × StudioData) : StudioRollup :=
  { name := p.1, gamesCount := p.2.games.length,
    totalPlayers := p.2.totalPlayers, topGame := p.2.topGame }

/-- The full `studios` computation (lines 610-617): project the map entries
in insertion order and sort by `totalPlayers` descending. -/
def computeStudios (games : List Game) : List StudioRollup :=
  sortDescBy StudioRollup.totalPlayers ((buildStudioMap games).map projectRollup)

/-- The `{ games, studios }` payload (line 619). -/
structure TopGamesResponse where
  games : List Game
  studios : List StudioRollup
deriving Repr, DecidableEq

/-- The uncached body of the top-games handler (lines 538-619): fan out over
`TOP_GAME_IDS`, keep the records whose metadata succeeded, sort by player
count descending, and derive the studio rollup from the sorted list. -/
def computeTopGames (meta : Int → Option AppData) (player : Int → Option Int) :
    TopGamesResponse :=
  let games := sortDescBy Game.playerCount (TOP_GAME_IDS.filterMap (fetchGame meta player))
  { games := games, studios := computeStudios games }

/-- A `STEAM_CACHE` entry (line 425): payload plus insertion timestamp. -/
structure CacheEntry (α : Type) where
  data : α
  timestamp : Int
deriving Repr, DecidableEq

/-- `CACHE_TTL = 5 * 60 * 1000` (line 426). -/
def CACHE_TTL : Int := 5 * 60 * 1000

/-- `getCached` (lines 428-434): a hit requires a stored entry strictly
younger than the TTL; anything else reads as absent. -/
def getCachedEntry {α : Type} (cache : List (String × CacheEntry α)) (key : String)
    (now : Int) : Option α :=
  match assocLookup cache key with
  | some c => if now - c.timestamp < CACHE_TTL then some c.data else none
  | none => none

/-- `setCache` (lines 436-438): store the payload under the key with the
current timestamp, overwriting any previous entry. -/
def setCacheEntry {α : Type} (cache : List (String × CacheEntry α)) (key : String)
    (data : α) (now : Int) : List (String × CacheEntry α) :=
  assocSet cache key { data := data, timestamp := now }

/-- The top-games route (lines 532-626): serve a valid cache entry with no
upstream traffic, otherwise run the fan-out, store the response under
`"top-games"` and return it.  The boolean reports whether this call issued
the round of upstream fetches. -/
def getTopGamesRoute (meta : Int → Option AppData) (player : Int → Option Int)
    (cache : List (String × CacheEntry TopGamesResponse)) (now : Int) :
    TopGamesResponse × List (String × CacheEntry TopGamesResponse) × Bool :=
  match getCachedEntry cache "top-games" now with
  | some cached => (cached, cache, false)
  | none =>
    let resp := computeTopGames meta player
    (resp, setCacheEntry cache "top-games" resp now, true)

/-! ## Spec-side definitions (for claim C6, written from the spec's words) -/

/-- Spec side, §3 Studio Rollup: the game records whose developer list
contains a given studio name. -/
def gamesWithDev (dev : String) (gs : List Game) : List Game :=
  gs.filter (fun g => decide (dev ∈ g.developers))

/-- Spec side, §3: the record with the maximum `playerCount`, ties broken in
favour of the first-encountered record. -/
def bestGame (g : Game) (gs : List Game) : Game :=
  gs.foldl (fun best h => if best.playerCount < h.playerCount then h else best) g

/-- Spec side, §3: the claimed `topGame` for a studio, when the studio has
any game at all. -/
def specTopGame (dev : String) (gs : List Game) : Option String :=
  match gamesWithDev dev gs with
  | [] => none
  | g :: rest => some (bestGame g rest).name

/-! ## Concrete inputs used by witnesses and counterexamples -/

/-- Limiter configuration of the spec's end-to-end example (window 60000 ms,
3 requests), used for C1. -/
def cfgEx1 : RateLimitConfig :=
  { windowMs := 60000, maxRequests := 3, skipSuccessfulRequests := false,
    skipFailedRequests := false }

/-- A limiter with `skipSuccessfulRequests` enabled, used for C2. -/
def cfgEx2 : RateLimitConfig :=
  { windowMs := 60000, maxRequests := 5, skipSuccessfulRequests := true,
    skipFailedRequests := false }

/-- A one-request-per-minute limiter, used for C3. -/
def cfgEx3 : RateLimitConfig :=
  { windowMs := 60000, maxRequests := 1, skipSuccessfulRequests := false,
    skipFailedRequests := false }

/-- A two-request limiter, used for C4. -/
def cfgEx4 : RateLimitConfig :=
  { windowMs := 60000, maxRequests := 2, skipSuccessfulRequests := false,
    skipFailedRequests := false }

/-- The standard API limiter configuration (lines 182-186), used for C9. -/
def cfgEx9 : RateLimitConfig :=
  { windowMs := 60000, maxRequests := 60, skipSuccessfulRequests := false,
    skipFailedRequests := false }

/-- The tail of the studio aggregation: folding further games into an
already-existing `studioMap` entry (each step is `stepData (some d) g`). -/
def mergeFold (d : StudioData) (l : List Game) : StudioData :=
  l.foldl (fun d g => stepData (some d) g) d

/-- The spec's studio-rollup example game A (`§8`): developer "Indie",
player count 100. -/
def gameIndieA : Game :=
  { appid := 1, name := "A", headerImage := "", developers := ["Indie"],
    publishers := [], playerCount := 100, reviewScore := none,
    totalReviews := none, releaseDate := none, genres := [] }

/-- The spec's studio-rollup example game B (`§8`): developer "Indie",
player count 50. -/
def gameIndieB : Game :=
  { appid := 2, name := "B", headerImage := "", developers := ["Indie"],
    publishers := [], playerCount := 50, reviewScore := none,
    totalReviews := none, releaseDate := none, genres := [] }

/-- The spec's studio-rollup example input. -/
def exGames : List Game := [gameIndieA, gameIndieB]

/-- The rollup entry the code produces for "Indie" on `exGames`. -/
def studioEx : StudioRollup :=
  { name := "Indie", gamesCount := 2, totalPlayers := 150, topGame := "A" }

/-- A game that lists the same developer twice, used for the C6
counterexample. -/
def gameDup : Game :=
  { appid := 3, name := "A", headerImage := "", developers := ["Indie", "Indie"],
    publishers := [], playerCount := 100, reviewScore := none,
    totalReviews := none, releaseDate := none, genres := [] }

/-- Concrete metadata for identifier 730, used by the C7/C8 witnesses. -/
def appDataEx : AppData :=
  { steam_appid := 730, name := "Counter-Strike 2", short_description := "",
    header_image := "", website := none, developers := some ["Valve"],
    publishers := some ["Valve"], price_overview := none, metacritic := none,
    recommendations := none, release_date := none, genres := none }

/-- A metadata oracle that succeeds only for identifier 730. -/
def metaEx : Int → Option AppData :=
  fun id => if id = 730 then some appDataEx else none

/-- A player-count oracle that always fails. -/
def playerEx : Int → Option Int := fun _ => none

/-- A metadata oracle that always fails, used by the C5 witness. -/
def metaNoneEx : Int → Option AppData := fun _ => none

/-- A player-count oracle that always fails, used by the C5 witness. -/
def playerNoneEx : Int → Option Int := fun _ => none

/-! ## Helper lemmas -/

theorem runCalls_cons_fst (cfg : RateLimitConfig) (store : Option RateLimitEntry)
    (t : Int) (ts : List Int) :
    (runCalls cfg store (t :: ts)).1
      = (checkAndRecord cfg store t).1 ::
        (runCalls cfg (some (checkAndRecord cfg store t).2) ts).1 := rfl

theorem runCalls_cons_snd (cfg : RateLimitConfig) (store : Option RateLimitEntry)
    (t : Int) (ts : List Int) :
    (runCalls cfg store (t :: ts)).2
      = (runCalls cfg (some (checkAndRecord cfg store t).2) ts).2 := rfl

theorem length_filter_lt_of_mem {α : Type} (p : α → Bool) {l : List α} {x : α}
    (hx : x ∈ l) (hpx : p x = false) : (l.filter p).length < l.length := by
  induction l with
  | nil => cases hx
  | cons a as ih =>
    rcases List.mem_cons.mp hx with rfl | hmem
    · rw [List.filter_cons, hpx]
      simp only [Bool.false_eq_true, if_false, List.length_cons]
      exact Nat.lt_succ_of_le (List.length_filter_le p as)
    · rw [List.filter_cons]
      by_cases hpa : p a = true
      · simp only [hpa, if_true, List.length_cons]
        exact Nat.succ_lt_succ (ih hmem)
      · simp only [hpa, Bool.false_eq_true, if_false, List.length_cons]
        exact Nat.lt_succ_of_lt (ih hmem)

/-- Running any number of further calls, all inside the window that opened at
`t0`, from an entry created at `t0` that already holds only timestamps
`≥ t0`: every call is allowed and the timestamps accumulate in order. -/
theorem runCalls_within_window (cfg : RateLimitConfig) (t0 : Int) :
    ∀ (ts : List Int) (c : Nat) (prev : List Int),
      (∀ p ∈ prev, t0 ≤ p) →
      (∀ t ∈ ts, t0 ≤ t ∧ t - t0 < cfg.windowMs) →
      prev.length + ts.length ≤ cfg.maxRequests →
      ((runCalls cfg (some ⟨c, t0 + cfg.windowMs, prev⟩) ts).1.all RateResult.isAllowed = true) ∧
      (runCalls cfg (some ⟨c, t0 + cfg.windowMs, prev⟩) ts).2
        = some ⟨c + ts.length, t0 + cfg.windowMs, prev ++ ts⟩ := by
  intro ts
  induction ts with
  | nil =>
    intro c prev hprev hts hlen
    exact ⟨rfl, by simp [runCalls]⟩
  | cons t ts ih =>
    intro c prev hprev hts hlen
    have ht0 : t0 ≤ t := (hts t (by simp)).1
    have htW : t - t0 < cfg.windowMs := (hts t (by simp)).2
    have hne : ¬ ((⟨c, t0 + cfg.windowMs, prev⟩ : RateLimitEntry).resetTime < t) := by
      simp only []
      omega
    have hfilter : prev.filter (fun p => decide (t - cfg.windowMs < p)) = prev := by
      apply List.filter_eq_self.mpr
      intro p hp
      have h1 := hprev p hp
      simp only [decide_eq_true_eq]
      omega
    have hlt : ¬ (cfg.maxRequests ≤ prev.length) := by
      simp only [List.length_cons] at hlen
      omega
    have hstep2 : (checkAndRecord cfg (some ⟨c, t0 + cfg.windowMs, prev⟩) t).2
        = ⟨c + 1, t0 + cfg.windowMs, prev ++ [t]⟩ := by
      simp [checkAndRecord, activeEntry, hne, hfilter, hlt]
    have hstep1 : (checkAndRecord cfg (some ⟨c, t0 + cfg.windowMs, prev⟩) t).1.isAllowed = true := by
      simp [checkAndRecord, activeEntry, hne, hfilter, hlt, RateResult.isAllowed]
    have hprev2 : ∀ p ∈ prev ++ [t], t0 ≤ p := by
      intro p hp
      rcases List.mem_append.mp hp with h | h
      · exact hprev p h
      · simp only [List.mem_singleton] at h
        omega
    have hts2 : ∀ u ∈ ts, t0 ≤ u ∧ u - t0 < cfg.windowMs := fun u hu => hts u (by simp [hu])
    have hlen2 : (prev ++ [t]).length + ts.length ≤ cfg.maxRequests := by
      simp only [List.length_append, List.length_singleton, List.length_cons,
        List.length_nil] at hlen ⊢
      omega
    obtain ⟨ihAll, ihState⟩ := ih (c + 1) (prev ++ [t]) hprev2 hts2 hlen2
    refine ⟨?_, ?_⟩
    · rw [runCalls_cons_fst, hstep2]
      simp only [List.all_cons, hstep1, Bool.true_and]
      exact ihAll
    · rw [runCalls_cons_snd, hstep2, ihState]
      simp only [List.length_cons, List.append_assoc, List.singleton_append]
      have hcc : c + 1 + ts.length = c + (ts.length + 1) := by omega
      rw [hcc]

/-- The first call on a fresh key creates the entry and is allowed. -/
theorem checkAndRecord_fresh (cfg : RateLimitConfig) (t0 : Int)
    (hm : 0 < cfg.maxRequests) :
    (checkAndRecord cfg none t0).1.isAllowed = true ∧
    (checkAndRecord cfg none t0).2 = ⟨1, t0 + cfg.windowMs, [t0]⟩ := by
  have hm0 : ¬ (cfg.maxRequests = 0) := by omega
  constructor
  · simp [checkAndRecord, activeEntry, freshEntry, hm0, RateResult.isAllowed]
  · simp [checkAndRecord, activeEntry, freshEntry, hm0]

/-- A call inside the window of an entry whose timestamps all lie at or after
the entry's creation time and already number at least `maxRequests` is
rejected, with `retryAfter` computed from the entry's `resetTime`. -/
theorem checkAndRecord_reject_full (cfg : RateLimitConfig) (c : Nat) (t0 : Int)
    (rs : List Int) (tNext : Int)
    (hrs : ∀ p ∈ rs, t0 ≤ p)
    (hfull : cfg.maxRequests ≤ rs.length)
    (hin : tNext - t0 < cfg.windowMs) :
    checkAndRecord cfg (some ⟨c, t0 + cfg.windowMs, rs⟩) tNext
      = (RateResult.rejected (ceilSeconds (t0 + cfg.windowMs - tNext)),
         ⟨c, t0 + cfg.windowMs, rs⟩) := by
  have hne : ¬ ((⟨c, t0 + cfg.windowMs, rs⟩ : RateLimitEntry).resetTime < tNext) := by
    simp only []
    omega
  have hfilter : rs.filter (fun p => decide (tNext - cfg.windowMs < p)) = rs := by
    apply List.filter_eq_self.mpr
    intro p hp
    have h1 := hrs p hp
    simp only [decide_eq_true_eq]
    omega
  simp [checkAndRecord, activeEntry, hne, hfilter, hfull]

/-! ## Claim theorems -/

/-- C1: starting from a key with no recorded state, any sequence of
`maxRequests` calls to the check-and-record logic whose times all lie within
`windowMs` of the first call are all allowed, and one further call from the
same key still inside that window is rejected. -/
theorem c1_sliding_window_limit (cfg : RateLimitConfig) (t0 : Int) (rest : List Int)
    (tNext : Int)
    (hrest : ∀ t ∈ rest, t0 ≤ t ∧ t - t0 < cfg.windowMs)
    (hlen : rest.length + 1 = cfg.maxRequests)
    (hnext1 : t0 ≤ tNext) (hnext2 : tNext - t0 < cfg.windowMs) :
    ((runCalls cfg none (t0 :: rest)).1.all RateResult.isAllowed = true) ∧
    ((checkAndRecord cfg (runCalls cfg none (t0 :: rest)).2 tNext).1.isRejected = true) := by
  have hm : 0 < cfg.maxRequests := by omega
  obtain ⟨h01, h02⟩ := checkAndRecord_fresh cfg t0 hm
  have hlenRun : ([t0] : List Int).length + rest.length ≤ cfg.maxRequests := by
    simp only [List.length_singleton]
    omega
  obtain ⟨hAll, hState⟩ :=
    runCalls_within_window cfg t0 rest 1 [t0] (by simp) hrest hlenRun
  have hreject := checkAndRecord_reject_full cfg (1 + rest.length) t0 (t0 :: rest) tNext
    (by
      intro p hp
      rcases List.mem_cons.mp hp with rfl | hp2
      · omega
      · exact (hrest p hp2).1)
    (by simp only [List.length_cons]; omega) hnext2
  refine ⟨?_, ?_⟩
  · rw [runCalls_cons_fst, h02]
    simp only [List.all_cons, h01, Bool.true_and]
    exact hAll
  · rw [runCalls_cons_snd, h02, hState]
    rw [show ([t0] ++ rest : List Int) = t0 :: rest from rfl] at *
    rw [hreject]
    rfl

/-- C1 witness: with window 60000 ms and limit 3, calls at 0, 1, 2 are all
allowed and a fourth call at 3 is rejected. -/
theorem c1_sliding_window_limit_witness :
    ((runCalls cfgEx1 none (0 :: [1, 2])).1.all RateResult.isAllowed = true) ∧
    ((checkAndRecord cfgEx1 (runCalls cfgEx1 none (0 :: [1, 2])).2 3).1.isRejected = true) :=
  c1_sliding_window_limit cfgEx1 0 [1, 2] 3 (by decide) (by decide) (by decide) (by decide)

/-- C2: the code's retraction is `entry.requests.pop()` — positional, not by
identity.  Request A records timestamp 0, request B records timestamp 10 on
the same key; when A's response then triggers the retraction, the popped
timestamp is 10 — B's — and A's own 0 stays recorded, contradicting the
claim that a retraction removes exactly the retracting request's own
timestamp.  (The spec itself flags this positional behaviour as a latent
bug, §9: the claim states the intended behaviour, the code does not
implement it.) -/
theorem c2_retraction_pops_other_request :
    (checkAndRecord cfgEx2 (some (checkAndRecord cfgEx2 none 0).2) 10).2.requests = [0, 10] ∧
    (retractLast (checkAndRecord cfgEx2 (some (checkAndRecord cfgEx2 none 0).2) 10).2).requests
      = [0] := by decide

/-- C3 counterexample: with window 60000 ms and limit 1, calls at 0 and
60000 are allowed (the call at 60000 slides the window past 0 without
resetting the entry, whose `resetTime` stays 60000); a second call at 60000
is rejected with `retryAfter = 0`, while the claim's formula — earliest
remaining timestamp (60000) plus the window, minus now, in seconds — gives
60.  The returned value is computed from the entry's `resetTime`, not from
the earliest remaining timestamp. -/
theorem c3_retry_after_counterexample :
    (checkAndRecord cfgEx3 (runCalls cfgEx3 none [0, 60000]).2 60000).1
      = RateResult.rejected 0 ∧
    (checkAndRecord cfgEx3 (runCalls cfgEx3 none [0, 60000]).2 60000).2.requests = [60000] ∧
    ceilSeconds (60000 + cfgEx3.windowMs - 60000) = 60 := by decide

/-- C3 amended: for a rejected call the `retryAfter` value equals
`ceil((resetTime - now) / 1000)`, where `resetTime` is `windowMs` past the
entry's creation time; while the creation-time request is still the earliest
remaining timestamp (as in any run that stays inside the first window) this
coincides with the claimed "earliest remaining timestamp + windowMs − now"
formula, here with the earliest remaining timestamp `t0`. -/
theorem c3_retry_after_reset_time (cfg : RateLimitConfig) (t0 : Int) (rest : List Int)
    (tNext : Int)
    (hrest : ∀ t ∈ rest, t0 ≤ t ∧ t - t0 < cfg.windowMs)
    (hlen : rest.length + 1 = cfg.maxRequests)
    (hnext2 : tNext - t0 < cfg.windowMs) :
    (checkAndRecord cfg (runCalls cfg none (t0 :: rest)).2 tNext).1
      = RateResult.rejected (ceilSeconds (t0 + cfg.windowMs - tNext)) ∧
    (checkAndRecord cfg (runCalls cfg none (t0 :: rest)).2 tNext).2.requests
      = t0 :: rest := by
  have hm : 0 < cfg.maxRequests := by omega
  obtain ⟨h01, h02⟩ := checkAndRecord_fresh cfg t0 hm
  have hlenRun : ([t0] : List Int).length + rest.length ≤ cfg.maxRequests := by
    simp only [List.length_singleton]
    omega
  obtain ⟨hAll, hState⟩ :=
    runCalls_within_window cfg t0 rest 1 [t0] (by simp) hrest hlenRun
  have hreject := checkAndRecord_reject_full cfg (1 + rest.length) t0 (t0 :: rest) tNext
    (by
      intro p hp
      rcases List.mem_cons.mp hp with rfl | hp2
      · omega
      · exact (hrest p hp2).1)
    (by simp only [List.length_cons]; omega) hnext2
  rw [runCalls_cons_snd, h02, hState]
  rw [show ([t0] ++ rest : List Int) = t0 :: rest from rfl] at *
  rw [hreject]
  exact ⟨rfl, rfl⟩

/-- C3 amended witness: calls at 0, 1, 2 under a 3-per-60000ms limiter, then
a rejected call at 3: `retryAfter = ceil((0 + 60000 - 3)/1000) = 60`, and the
earliest remaining timestamp is 0. -/
theorem c3_retry_after_reset_time_witness :
    (checkAndRecord cfgEx1 (runCalls cfgEx1 none (0 :: [1, 2])).2 3).1
      = RateResult.rejected (ceilSeconds (0 + cfgEx1.windowMs - 3)) ∧
    (checkAndRecord cfgEx1 (runCalls cfgEx1 none (0 :: [1, 2])).2 3).2.requests
      = 0 :: [1, 2] :=
  c3_retry_after_reset_time cfgEx1 0 [1, 2] 3 (by decide) (by decide) (by decide)

/-- C4: a new call on an entry of exactly `maxRequests` recorded timestamps,
one of which (in particular the earliest) is exactly `windowMs` old, is
allowed: the pruning filter keeps only timestamps strictly newer than
`now - windowMs`, so the aged timestamp is dropped before the limit check —
the window slides instead of resetting in buckets.  (If the entry has
additionally expired entirely, it is reset and the call is allowed too.) -/
theorem c4_window_slides (cfg : RateLimitConfig) (c : Nat) (r : Int) (rs : List Int)
    (now : Int) (hm : 0 < cfg.maxRequests) (hlen : rs.length = cfg.maxRequests)
    (hmem : (now - cfg.windowMs) ∈ rs) :
    (checkAndRecord cfg (some ⟨c, r, rs⟩) now).1.isAllowed = true := by
  by_cases hr : (⟨c, r, rs⟩ : RateLimitEntry).resetTime < now
  · have hm0 : ¬ (cfg.maxRequests = 0) := by omega
    simp [checkAndRecord, activeEntry, freshEntry, hr, hm0, RateResult.isAllowed]
  · have hflt : ¬ (cfg.maxRequests ≤
        (rs.filter (fun p => decide (now - cfg.windowMs < p))).length) := by
      have := length_filter_lt_of_mem (fun p => decide (now - cfg.windowMs < p)) hmem
        (by simp)
      omega
    simp [checkAndRecord, activeEntry, hr, hflt, RateResult.isAllowed]

/-- C4 witness: limit 2, window 60000; at `now = 60000` the entry holds
timestamps 0 and 30000 — the earliest is exactly `windowMs` old — and the
call is allowed. -/
theorem c4_window_slides_witness :
    (checkAndRecord cfgEx4 (some ⟨2, 60000, [0, 30000]⟩) 60000).1.isAllowed = true :=
  c4_window_slides cfgEx4 2 60000 [0, 30000] 60000 (by decide) (by decide) (by decide)

/-- C9: if the caller-supplied key generator throws, the catch-all of the
middleware fails open: the request is passed through (`next()`), the error
is logged, the store is untouched, and — the middleware being a total
function into `MiddlewareOutcome` — no error propagates to the caller. -/
theorem c9_fail_open {Req : Type} (cfg : RateLimitConfig)
    (keyGen : Req → Except String String)
    (store : List (String × RateLimitEntry)) (req : Req) (now : Int) (e : String)
    (h : keyGen req = Except.error e) :
    rateLimiterMiddleware cfg keyGen store req now
      = { action := MiddlewareAction.next, errorLogged := true, store := store } := by
  simp [rateLimiterMiddleware, h]

/-- C9 witness: a key generator that always throws makes the middleware pass
the request through with the error logged and the store unchanged. -/
theorem c9_fail_open_witness :
    rateLimiterMiddleware cfgEx9 (fun _ : Unit => (Except.error "boom" : Except String String))
      [] () 0
      = { action := MiddlewareAction.next, errorLogged := true, store := [] } :=
  c9_fail_open cfgEx9 (fun _ : Unit => (Except.error "boom" : Except String String))
    [] () 0 "boom" rfl

/-! ## Sorting and association-list lemmas -/

theorem mem_insertDescBy {α : Type} (key : α → Int) (x y : α) (l : List α) :
    y ∈ insertDescBy key x l ↔ y = x ∨ y ∈ l := by
  induction l with
  | nil => simp [insertDescBy]
  | cons z zs ih =>
    by_cases h : key z ≤ key x
    · simp only [insertDescBy, if_pos h, List.mem_cons]
    · simp only [insertDescBy, if_neg h, List.mem_cons, ih]
      tauto

theorem mem_sortDescBy {α : Type} (key : α → Int) (y : α) (l : List α) :
    y ∈ sortDescBy key l ↔ y ∈ l := by
  induction l with
  | nil => simp [sortDescBy]
  | cons x xs ih =>
    simp only [sortDescBy, mem_insertDescBy, List.mem_cons, ih]

theorem pairwise_insertDescBy {α : Type} (key : α → Int) (x : α) (l : List α)
    (hl : l.Pairwise (fun a b => key b ≤ key a)) :
    (insertDescBy key x l).Pairwise (fun a b => key b ≤ key a) := by
  induction l with
  | nil => simp [insertDescBy]
  | cons z zs ih =>
    obtain ⟨hz, hzs⟩ := List.pairwise_cons.mp hl
    by_cases h : key z ≤ key x
    · simp only [insertDescBy, if_pos h]
      refine List.pairwise_cons.mpr ⟨?_, hl⟩
      intro w hw
      rcases List.mem_cons.mp hw with rfl | hw2
      · exact h
      · exact le_trans (hz w hw2) h
    · simp only [insertDescBy, if_neg h]
      refine List.pairwise_cons.mpr ⟨?_, ih hzs⟩
      intro w hw
      rcases (mem_insertDescBy key x w zs).mp hw with rfl | hw2
      · exact le_of_lt (not_le.mp h)
      · exact hz w hw2

theorem pairwise_sortDescBy {α : Type} (key : α → Int) (l : List α) :
    (sortDescBy key l).Pairwise (fun a b => key b ≤ key a) := by
  induction l with
  | nil => simp [sortDescBy]
  | cons x xs ih => exact pairwise_insertDescBy key x _ ih

theorem assocLookup_assocSet_self {β : Type} (m : List (String × β)) (key : String) (v : β) :
    assocLookup (assocSet m key v) key = some v := by
  induction m with
  | nil => simp [assocSet, assocLookup]
  | cons p rest ih =>
    obtain ⟨k, w⟩ := p
    by_cases h : k = key
    · simp [assocSet, assocLookup, h]
    · simp [assocSet, assocLookup, h, ih]

theorem assocLookup_of_mem {β : Type} :
    ∀ (m : List (String × β)) (p : String × β),
      (m.map Prod.fst).Nodup → p ∈ m → assocLookup m p.1 = some p.2 := by
  intro m
  induction m with
  | nil => intro p _ hp; cases hp
  | cons q rest ih =>
    intro p hnd hp
    obtain ⟨k, v⟩ := q
    have hnd2 : (k :: rest.map Prod.fst).Nodup := by
      rw [List.map_cons] at hnd
      exact hnd
    obtain ⟨hk, hrest⟩ := List.nodup_cons.mp hnd2
    rcases List.mem_cons.mp hp with rfl | hp2
    · simp [assocLookup]
    · have hne : ¬ (k = p.1) := by
        intro he
        apply hk
        rw [he]
        exact List.mem_map_of_mem Prod.fst hp2
      simp [assocLookup, hne, ih p hrest hp2]

theorem computeTopGames_games (meta : Int → Option AppData) (player : Int → Option Int) :
    (computeTopGames meta player).games
      = sortDescBy Game.playerCount (TOP_GAME_IDS.filterMap (fetchGame meta player)) := rfl

theorem computeTopGames_studios (meta : Int → Option AppData) (player : Int → Option Int) :
    (computeTopGames meta player).studios
      = computeStudios
          (sortDescBy Game.playerCount (TOP_GAME_IDS.filterMap (fetchGame meta player))) := rfl

theorem getTopGamesRoute_miss (meta : Int → Option AppData) (player : Int → Option Int)
    (cache : List (String × CacheEntry TopGamesResponse)) (now : Int)
    (h : getCachedEntry cache "top-games" now = none) :
    getTopGamesRoute meta player cache now
      = (computeTopGames meta player,
         setCacheEntry cache "top-games" (computeTopGames meta player) now, true) := by
  simp [getTopGamesRoute, h]

theorem getTopGamesRoute_hit (meta : Int → Option AppData) (player : Int → Option Int)
    (cache : List (String × CacheEntry TopGamesResponse)) (now : Int)
    (r : TopGamesResponse)
    (h : getCachedEntry cache "top-games" now = some r) :
    getTopGamesRoute meta player cache now = (r, cache, false) := by
  simp [getTopGamesRoute, h]

/-- C5: a `getTopGames` call that misses the cache issues the upstream
fetch round and stores the response; a second call strictly within the
5-minute TTL of that store returns the identical response with no upstream
fetches and leaves the cache unchanged; a call at or past the TTL issues a
fresh upstream round and overwrites the cache entry with the new timestamp. -/
theorem c5_cache_ttl (meta : Int → Option AppData) (player : Int → Option Int)
    (cache0 : List (String × CacheEntry TopGamesResponse)) (t0 t1 t2 : Int)
    (hmiss : getCachedEntry cache0 "top-games" t0 = none)
    (h1 : t1 - t0 < CACHE_TTL)
    (h2 : CACHE_TTL ≤ t2 - t0) :
    (getTopGamesRoute meta player cache0 t0).2.2 = true ∧
    getTopGamesRoute meta player (getTopGamesRoute meta player cache0 t0).2.1 t1
      = ((getTopGamesRoute meta player cache0 t0).1,
         (getTopGamesRoute meta player cache0 t0).2.1, false) ∧
    (getTopGamesRoute meta player (getTopGamesRoute meta player cache0 t0).2.1 t2).2.2 = true ∧
    assocLookup
      (getTopGamesRoute meta player (getTopGamesRoute meta player cache0 t0).2.1 t2).2.1
      "top-games"
      = some { data := computeTopGames meta player, timestamp := t2 } := by
  have hfirst := getTopGamesRoute_miss meta player cache0 t0 hmiss
  have hlook : assocLookup (setCacheEntry cache0 "top-games" (computeTopGames meta player) t0)
      "top-games"
      = some { data := computeTopGames meta player, timestamp := t0 } := by
    simp [setCacheEntry, assocLookup_assocSet_self]
  have hhit : getCachedEntry (setCacheEntry cache0 "top-games" (computeTopGames meta player) t0)
      "top-games" t1 = some (computeTopGames meta player) := by
    simp [getCachedEntry, hlook, h1]
  have hnot : ¬ (t2 - t0 < CACHE_TTL) := by omega
  have hmiss2 : getCachedEntry (setCacheEntry cache0 "top-games" (computeTopGames meta player) t0)
      "top-games" t2 = none := by
    simp [getCachedEntry, hlook, hnot]
  refine ⟨?_, ?_, ?_, ?_⟩
  · rw [hfirst]
  · rw [hfirst, getTopGamesRoute_hit meta player _ t1 _ hhit]
  · rw [hfirst, getTopGamesRoute_miss meta player _ t2 hmiss2]
  · rw [hfirst, getTopGamesRoute_miss meta player _ t2 hmiss2]
    simp [setCacheEntry, assocLookup_assocSet_self]

/-- C5 witness: with always-failing oracles, an empty cache and calls at
0, 1000 and 300000 ms: the first call fetches and stores, the second is
served from cache unchanged, the third (at exactly the TTL) fetches again
and overwrites the entry. -/
theorem c5_cache_ttl_witness :
    (getTopGamesRoute metaNoneEx playerNoneEx [] 0).2.2 = true ∧
    getTopGamesRoute metaNoneEx playerNoneEx
        (getTopGamesRoute metaNoneEx playerNoneEx [] 0).2.1 1000
      = ((getTopGamesRoute metaNoneEx playerNoneEx [] 0).1,
         (getTopGamesRoute metaNoneEx playerNoneEx [] 0).2.1, false) ∧
    (getTopGamesRoute metaNoneEx playerNoneEx
        (getTopGamesRoute metaNoneEx playerNoneEx [] 0).2.1 300000).2.2 = true ∧
    assocLookup
      (getTopGamesRoute metaNoneEx playerNoneEx
        (getTopGamesRoute metaNoneEx playerNoneEx [] 0).2.1 300000).2.1
      "top-games"
      = some { data := computeTopGames metaNoneEx playerNoneEx, timestamp := 300000 } :=
  c5_cache_ttl metaNoneEx playerNoneEx [] 0 1000 300000 rfl (by decide) (by decide)

/-- C7: the games list of a top-games run contains a record for exactly the
identifiers whose metadata fetch succeeded: every metadata hit contributes
its fully-built record (no null or defaulted metadata fields — the record is
`buildGameRecord` of the fetched metadata), and every record in the list
comes from some identifier whose metadata fetch succeeded, so failing
identifiers are absent and do not abort the operation. -/
theorem c7_partial_metadata_failure (meta : Int → Option AppData)
    (player : Int → Option Int) :
    (∀ id ∈ TOP_GAME_IDS, ∀ a, meta id = some a →
        buildGameRecord a (playerCountOf (player id)) ∈ (computeTopGames meta player).games) ∧
    (∀ g ∈ (computeTopGames meta player).games,
        ∃ id ∈ TOP_GAME_IDS, ∃ a, meta id = some a ∧
          g = buildGameRecord a (playerCountOf (player id))) := by
  constructor
  · intro id hid a ha
    rw [computeTopGames_games, mem_sortDescBy]
    apply List.mem_filterMap.mpr
    exact ⟨id, hid, by simp [fetchGame, ha]⟩
  · intro g hg
    rw [computeTopGames_games, mem_sortDescBy] at hg
    obtain ⟨id, hid, hfg⟩ := List.mem_filterMap.mp hg
    cases hma : meta id with
    | none =>
      rw [fetchGame, hma] at hfg
      cases hfg
    | some a =>
      refine ⟨id, hid, a, hma, ?_⟩
      rw [fetchGame, hma] at hfg
      exact (Option.some_inj.mp hfg).symm

/-- C7 witness: with metadata succeeding only for 730 and the player fetch
failing, the record built from 730's metadata is in the games list. -/
theorem c7_partial_metadata_failure_witness :
    buildGameRecord appDataEx (playerCountOf (playerEx 730))
      ∈ (computeTopGames metaEx playerEx).games :=
  (c7_partial_metadata_failure metaEx playerEx).1 730 (by decide) appDataEx (by decide)

/-- C8: an identifier whose metadata fetch succeeds but whose player-count
fetch fails still yields a record, and that record's player count is 0 —
both in the top-games fan-out (`fetchGame`) and in the single-game details
endpoint (`getGameDetails`). -/
theorem c8_player_count_defaults_zero (meta : Int → Option AppData)
    (player : Int → Option Int) (appId : Int) (a : AppData)
    (hm : meta appId = some a) (hp : player appId = none) :
    fetchGame meta player appId = some (buildGameRecord a 0) ∧
    getGameDetails meta player appId = some (buildDetailResult a 0) ∧
    (buildGameRecord a 0).playerCount = 0 ∧
    (buildDetailResult a 0).metrics.player_count = 0 := by
  refine ⟨?_, ?_, rfl, rfl⟩
  · rw [fetchGame, hm, hp]
    rfl
  · rw [getGameDetails, hm, hp]
    rfl

/-- C8 witness: identifier 730 with concrete metadata and a failing player
fetch yields records with player count 0 on both paths. -/
theorem c8_player_count_defaults_zero_witness :
    fetchGame metaEx playerEx 730 = some (buildGameRecord appDataEx 0) ∧
    getGameDetails metaEx playerEx 730 = some (buildDetailResult appDataEx 0) ∧
    (buildGameRecord appDataEx 0).playerCount = 0 ∧
    (buildDetailResult appDataEx 0).metrics.player_count = 0 :=
  c8_player_count_defaults_zero metaEx playerEx 730 appDataEx (by decide) rfl

/-- C10: in every top-games response the studios array is sorted by
`totalPlayers` in descending order, and (as the spec does state) the games
array is sorted by `playerCount` in descending order. -/
theorem c10_studios_sorted_desc (meta : Int → Option AppData)
    (player : Int → Option Int) :
    ((computeTopGames meta player).studios.Pairwise
      (fun a b => b.totalPlayers ≤ a.totalPlayers)) ∧
    ((computeTopGames meta player).games.Pairwise
      (fun a b => b.playerCount ≤ a.playerCount)) := by
  constructor
  · rw [computeTopGames_studios]
    exact pairwise_sortDescBy StudioRollup.totalPlayers _
  · rw [computeTopGames_games]
    exact pairwise_sortDescBy Game.playerCount _

/-! ## Studio aggregation lemmas -/

theorem assocLookup_updateEntry_self (dev : String) (g : Game)
    (m : List (String × StudioData)) :
    assocLookup (updateEntry dev g m) dev = some (stepData (assocLookup m dev) g) := by
  induction m with
  | nil => simp [updateEntry, assocLookup]
  | cons p rest ih =>
    obtain ⟨k, d⟩ := p
    by_cases h : k = dev
    · simp [updateEntry, assocLookup, h]
    · simp [updateEntry, assocLookup, h, ih]

theorem assocLookup_updateEntry_other (dev k2 : String) (hk : k2 ≠ dev) (g : Game)
    (m : List (String × StudioData)) :
    assocLookup (updateEntry dev g m) k2 = assocLookup m k2 := by
  induction m with
  | nil =>
    have hne : ¬ (dev = k2) := fun he => hk he.symm
    simp [updateEntry, assocLookup, hne]
  | cons p rest ih =>
    obtain ⟨k, d⟩ := p
    by_cases h : k = dev
    · have hdk2 : ¬ (dev = k2) := fun he => hk he.symm
      simp [updateEntry, assocLookup, h, hdk2]
    · by_cases h2 : k = k2
      · simp [updateEntry, assocLookup, h, h2, hk]
      · simp [updateEntry, assocLookup, h, h2, ih]

theorem assocLookup_foldl_updateEntry (g : Game) :
    ∀ (devs : List String), devs.Nodup →
      ∀ (m : List (String × StudioData)) (dev : String),
      assocLookup (devs.foldl (fun acc d => updateEntry d g acc) m) dev
        = if dev ∈ devs then some (stepData (assocLookup m dev) g)
          else assocLookup m dev := by
  intro devs
  induction devs with
  | nil =>
    intro _ m dev
    simp
  | cons d0 ds ih =>
    intro hnd m dev
    obtain ⟨hd0, hds⟩ := List.nodup_cons.mp hnd
    simp only [List.foldl_cons]
    rw [ih hds]
    by_cases h : dev = d0
    · subst h
      rw [if_neg hd0, assocLookup_updateEntry_self,
        if_pos (List.mem_cons_self dev ds)]
    · rw [assocLookup_updateEntry_other d0 dev h g m]
      by_cases h2 : dev ∈ ds
      · rw [if_pos h2, if_pos (List.mem_cons_of_mem d0 h2)]
      · rw [if_neg h2, if_neg (by simp [h, h2])]

theorem assocLookup_applyGame (g : Game) (hg : g.developers.Nodup)
    (m : List (String × StudioData)) (dev : String) :
    assocLookup (applyGame m g) dev
      = if dev ∈ g.developers then some (stepData (assocLookup m dev) g)
        else assocLookup m dev :=
  assocLookup_foldl_updateEntry g g.developers hg m dev

theorem assocLookup_foldl_applyGame :
    ∀ (gs : List Game), (∀ g ∈ gs, g.developers.Nodup) →
      ∀ (m : List (String × StudioData)) (dev : String),
      assocLookup (gs.foldl applyGame m) dev
        = gs.foldl (fun o g => if dev ∈ g.developers then some (stepData o g) else o)
            (assocLookup m dev) := by
  intro gs
  induction gs with
  | nil =>
    intro _ m dev
    simp
  | cons g gs ih =>
    intro hnd m dev
    simp only [List.foldl_cons]
    rw [ih (fun h hh => hnd h (List.mem_cons_of_mem g hh)) (applyGame m g) dev,
      assocLookup_applyGame g (hnd g (List.mem_cons_self g gs)) m dev]

theorem foldl_stepData_filter (dev : String) :
    ∀ (gs : List Game) (o : Option StudioData),
      gs.foldl (fun o g => if dev ∈ g.developers then some (stepData o g) else o) o
        = (gamesWithDev dev gs).foldl (fun o g => some (stepData o g)) o := by
  intro gs
  induction gs with
  | nil =>
    intro o
    simp [gamesWithDev]
  | cons g gs ih =>
    intro o
    by_cases h : dev ∈ g.developers
    · have hfc : gamesWithDev dev (g :: gs) = g :: gamesWithDev dev gs := by
        simp [gamesWithDev, List.filter_cons, h]
      rw [hfc]
      simp only [List.foldl_cons, if_pos h]
      exact ih (some (stepData o g))
    · have hfc : gamesWithDev dev (g :: gs) = gamesWithDev dev gs := by
        simp [gamesWithDev, List.filter_cons, h]
      rw [hfc]
      simp only [List.foldl_cons, if_neg h]
      exact ih o

theorem foldl_stepData_some :
    ∀ (l : List Game) (d : StudioData),
      l.foldl (fun o g => some (stepData o g)) (some d) = some (mergeFold d l) := by
  intro l
  induction l with
  | nil =>
    intro d
    simp [mergeFold]
  | cons g l ih =>
    intro d
    simp only [List.foldl_cons]
    rw [ih (stepData (some d) g)]
    rfl

theorem mergeFold_games :
    ∀ (l : List Game) (d : StudioData),
      (mergeFold d l).games = d.games ++ l.map Game.name := by
  intro l
  induction l with
  | nil =>
    intro d
    simp [mergeFold]
  | cons g l ih =>
    intro d
    have hm : mergeFold d (g :: l) = mergeFold (stepData (some d) g) l := rfl
    rw [hm, ih (stepData (some d) g)]
    simp [stepData]

theorem mergeFold_totalPlayers :
    ∀ (l : List Game) (d : StudioData),
      (mergeFold d l).totalPlayers = d.totalPlayers + (l.map Game.playerCount).sum := by
  intro l
  induction l with
  | nil =>
    intro d
    simp [mergeFold]
  | cons g l ih =>
    intro d
    have hm : mergeFold d (g :: l) = mergeFold (stepData (some d) g) l := rfl
    rw [hm, ih (stepData (some d) g)]
    simp [stepData]
    ring

theorem mergeFold_top :
    ∀ (l : List Game) (d : StudioData) (b : Game),
      d.topPlayerCount = b.playerCount → d.topGame = b.name →
      (mergeFold d l).topPlayerCount = (bestGame b l).playerCount ∧
      (mergeFold d l).topGame = (bestGame b l).name := by
  intro l
  induction l with
  | nil =>
    intro d b h1 h2
    exact ⟨h1, h2⟩
  | cons g l ih =>
    intro d b h1 h2
    have hm : mergeFold d (g :: l) = mergeFold (stepData (some d) g) l := rfl
    have hb : bestGame b (g :: l)
        = bestGame (if b.playerCount < g.playerCount then g else b) l := rfl
    rw [hm, hb]
    by_cases hlt : d.topPlayerCount < g.playerCount
    · have hlt2 : b.playerCount < g.playerCount := by omega
      rw [if_pos hlt2]
      exact ih (stepData (some d) g) g (by simp [stepData, hlt]) (by simp [stepData, hlt])
    · have hlt2 : ¬ (b.playerCount < g.playerCount) := by omega
      rw [if_neg hlt2]
      exact ih (stepData (some d) g) b (by simp [stepData, hlt, hlt2, h1])
        (by simp [stepData, hlt, hlt2, h1, h2])

theorem keys_updateEntry (dev : String) (g : Game) (m : List (String × StudioData)) :
    (updateEntry dev g m).map Prod.fst
      = if dev ∈ m.map Prod.fst then m.map Prod.fst
        else m.map Prod.fst ++ [dev] := by
  induction m with
  | nil => simp [updateEntry]
  | cons p rest ih =>
    obtain ⟨k, d⟩ := p
    by_cases h : k = dev
    · subst h
      simp [updateEntry]
    · simp only [updateEntry, if_neg h, List.map_cons]
      rw [ih]
      have hne : ¬ (dev = k) := fun he => h he.symm
      by_cases h2 : dev ∈ rest.map Prod.fst
      · simp [h2, hne]
      · simp [h2, hne]

theorem keys_nodup_updateEntry (dev : String) (g : Game)
    (m : List (String × StudioData)) (h : (m.map Prod.fst).Nodup) :
    ((updateEntry dev g m).map Prod.fst).Nodup := by
  rw [keys_updateEntry]
  by_cases h2 : dev ∈ m.map Prod.fst
  · simp [h2, h]
  · rw [if_neg h2, List.nodup_append]
    refine ⟨h, List.nodup_singleton dev, ?_⟩
    intro x hx hx2
    rw [List.mem_singleton] at hx2
    subst hx2
    exact h2 hx

theorem keys_nodup_foldl_updateEntry (g : Game) :
    ∀ (devs : List String) (m : List (String × StudioData)),
      (m.map Prod.fst).Nodup →
      (((devs.foldl (fun acc d => updateEntry d g acc) m)).map Prod.fst).Nodup := by
  intro devs
  induction devs with
  | nil =>
    intro m hm
    simpa using hm
  | cons d0 ds ih =>
    intro m hm
    simp only [List.foldl_cons]
    exact ih (updateEntry d0 g m) (keys_nodup_updateEntry d0 g m hm)

theorem keys_nodup_foldl_applyGame :
    ∀ (gs : List Game) (m : List (String × StudioData)),
      (m.map Prod.fst).Nodup → ((gs.foldl applyGame m).map Prod.fst).Nodup := by
  intro gs
  induction gs with
  | nil =>
    intro m hm
    simpa using hm
  | cons g gs ih =>
    intro m hm
    simp only [List.foldl_cons]
    exact ih (applyGame m g) (keys_nodup_foldl_updateEntry g g.developers m hm)

theorem keys_nodup_buildStudioMap (games : List Game) :
    ((buildStudioMap games).map Prod.fst).Nodup :=
  keys_nodup_foldl_applyGame games [] (by simp)

/-- C6 amended: when no game record lists the same developer twice, each
studio rollup entry satisfies the claimed invariant — `gamesCount` counts
the records whose developer list contains the studio, `totalPlayers` sums
their player counts, and `topGame` is the maximal-player-count record among
them with ties broken in favour of the first-encountered record.  (Without
the no-duplicate hypothesis the code counts one contribution per occurrence
of the developer name; see the counterexample.) -/
theorem c6_rollup_invariant (games : List Game)
    (hnodup : ∀ g ∈ games, g.developers.Nodup) :
    ∀ s ∈ computeStudios games,
      s.gamesCount = (gamesWithDev s.name games).length ∧
      s.totalPlayers = ((gamesWithDev s.name games).map Game.playerCount).sum ∧
      some s.topGame = specTopGame s.name games := by
  intro s hs
  rw [computeStudios, mem_sortDescBy] at hs
  obtain ⟨p, hpmem, hproj⟩ := List.mem_map.mp hs
  obtain ⟨k0, d0⟩ := p
  have hlook : assocLookup (buildStudioMap games) k0 = some d0 :=
    assocLookup_of_mem _ (k0, d0) (keys_nodup_buildStudioMap games) hpmem
  have hfold : assocLookup (buildStudioMap games) k0
      = (gamesWithDev k0 games).foldl (fun o g => some (stepData o g)) none := by
    rw [buildStudioMap, assocLookup_foldl_applyGame games hnodup [] k0,
      foldl_stepData_filter]
    rfl
  subst hproj
  cases hgw : gamesWithDev k0 games with
  | nil =>
    rw [hfold, hgw] at hlook
    simp at hlook
  | cons g0 rest =>
    rw [hfold, hgw, List.foldl_cons, foldl_stepData_some rest (stepData none g0)] at hlook
    have hd0 : d0 = mergeFold (stepData none g0) rest := (Option.some_inj.mp hlook).symm
    subst hd0
    have hname : (projectRollup (k0, mergeFold (stepData none g0) rest)).name = k0 := rfl
    rw [hname]
    refine ⟨?_, ?_, ?_⟩
    · show (mergeFold (stepData none g0) rest).games.length = _
      rw [mergeFold_games, hgw]
      simp [stepData]
    · show (mergeFold (stepData none g0) rest).totalPlayers = _
      rw [mergeFold_totalPlayers, hgw]
      simp [stepData]
    · show some (mergeFold (stepData none g0) rest).topGame = _
      have htop := (mergeFold_top rest (stepData none g0) g0 (by simp [stepData])
        (by simp [stepData])).2
      rw [htop]
      simp only [specTopGame, hgw]

/-- C6 witness: the spec's own example — games A (100 players) and B (50
players), both by "Indie" — yields the rollup entry with `gamesCount = 2`,
`totalPlayers = 150`, `topGame = "A"`, matching the claimed invariant. -/
theorem c6_rollup_invariant_witness :
    studioEx.gamesCount = (gamesWithDev studioEx.name exGames).length ∧
    studioEx.totalPlayers = ((gamesWithDev studioEx.name exGames).map Game.playerCount).sum ∧
    some studioEx.topGame = specTopGame studioEx.name exGames :=
  c6_rollup_invariant exGames (by decide) studioEx (by decide)

/-- C6 counterexample: a single game that lists the developer "Indie" twice
produces a rollup entry with `gamesCount = 2` and `totalPlayers = 200`,
whereas exactly one game record contains "Indie" (and its player-count sum
is 100): the claim's invariant fails on duplicate developer entries, because
the code counts one contribution per occurrence. -/
theorem c6_rollup_counterexample :
    computeStudios [gameDup]
      = [{ name := "Indie", gamesCount := 2, totalPlayers := 200, topGame := "A" }] ∧
    (gamesWithDev "Indie" [gameDup]).length = 1 ∧
    ((gamesWithDev "Indie" [gameDup]).map Game.playerCount).sum = 100 := by decide
